import Mathlib

/-!
Shallow embedding of the role-based access-control backend of this
repository: the JWT authentication middleware (`protect` in
backend/middleware/auth.js), the role gate (`checkRole` in
middleware/roleCheck.js), the post controller (`updatePost`, `deletePost`
in backend/controllers/postController.js) and the user controller
(`updateUserRole`, `deleteUser` in backend/controllers/userController.js).

Stores are modelled as lists of records; `Model.findById` becomes a
`List.find?` on the id field, `findByIdAndUpdate` / `save` become a map
that replaces the matching record, and `findByIdAndDelete` a filter.
Request handling is pure: each handler takes the store and the request
data and returns the HTTP outcome together with the store after the call.
-/

namespace RBAC

/-- A stored user record (collection backing `User.findById`): identity,
credential material and role. -/
structure User where
  id : Nat
  name : String
  email : String
  password : String
  role : String
deriving DecidableEq

/-- The principal attached to `req.user` by the auth middleware: the user
record with the password projected away (`.select('-password')`). -/
structure Principal where
  id : Nat
  name : String
  email : String
  role : String
deriving DecidableEq

/-- Projection performed by `.select('-password')`. -/
def toPrincipal (u : User) : Principal :=
  ⟨u.id, u.name, u.email, u.role⟩

/-- A stored post record (backend/models/Post.js). `author` holds the id
of the owning user. -/
structure Post where
  id : Nat
  title : String
  content : String
  author : Nat
  status : String
deriving DecidableEq

/-- `User.findById`. -/
def findUser (users : List User) (uid : Nat) : Option User :=
  users.find? (fun u => u.id == uid)

/-- `Post.findById`. -/
def findPost (posts : List Post) (pid : Nat) : Option Post :=
  posts.find? (fun p => p.id == pid)

/-- JavaScript `String.prototype.startsWith`, on the character data. -/
def jsStartsWith (s pre : String) : Bool :=
  pre.data.isPrefixOf s.data

/-- Helper for `jsSplitSpace`: accumulates the current field. -/
def splitSpaceAux : List Char → List Char → List String
  | [], acc => [String.mk acc.reverse]
  | c :: cs, acc =>
    if c = ' ' then String.mk acc.reverse :: splitSpaceAux cs []
    else splitSpaceAux cs (c :: acc)

/-- JavaScript `s.split(' ')`: fields between single-space separators,
keeping empty fields (so `"Bearer ".split(' ') = ["Bearer", ""]`). -/
def jsSplitSpace (s : String) : List String :=
  splitSpaceAux s.data []

/-- `req.headers.authorization.split(' ')[1]` — the bearer token, when a
second field exists (`[1]` is `undefined`, i.e. `none`, otherwise). -/
def bearerToken (header : String) : Option String :=
  (jsSplitSpace header)[1]?

/-- What the auth middleware did with the request: reject it with a
status/message response, call `next()` with a principal attached, or (a
corner of the JS control flow, reachable only if an empty-string token
verified) call `next()` and then still attempt the no-token response. -/
inductive AuthOutcome where
  | fail (status : Nat) (message : String)
  | proceed (p : Principal)
  | proceedThenFail (p : Principal) (status : Nat) (message : String)
deriving DecidableEq

/-- Observable trace of one run of the auth middleware: its outcome, how
many times `jwt.verify` was invoked, how many credential-store reads
(`User.findById`) were issued, and the user store after the run. -/
structure AuthTrace where
  outcome : AuthOutcome
  verifyCalls : Nat
  storeReads : Nat
  usersAfter : List User
deriving DecidableEq

/-- The `protect` middleware (backend/middleware/auth.js), parameterized
by the token codec `verify` (`jwt.verify`, returning the decoded subject
id on success). A header that is absent, empty (falsy) or does not start
with `Bearer` leaves `token` unset and falls to the no-token response; an
extracted token that is `undefined` makes `jwt.verify` throw, landing in
the catch branch; after a successful `next()` the function still runs
`if (!token)`, which only an empty-string token can trigger. -/
def protect (verify : String → Option Nat) (users : List User)
    (authHeader : Option String) : AuthTrace :=
  match authHeader with
  | none => ⟨.fail 401 "Not authorized, no token provided", 0, 0, users⟩
  | some header =>
    if header ≠ "" ∧ jsStartsWith header "Bearer" = true then
      match bearerToken header with
      | none => ⟨.fail 401 "Not authorized, token failed", 1, 0, users⟩
      | some tok =>
        match verify tok with
        | none => ⟨.fail 401 "Not authorized, token failed", 1, 0, users⟩
        | some uid =>
          match findUser users uid with
          | none => ⟨.fail 401 "User not found", 1, 1, users⟩
          | some u =>
            if tok = "" then
              ⟨.proceedThenFail (toPrincipal u) 401
                 "Not authorized, no token provided", 1, 1, users⟩
            else
              ⟨.proceed (toPrincipal u), 1, 1, users⟩
    else
      ⟨.fail 401 "Not authorized, no token provided", 0, 0, users⟩

/-- Outcome of the role gate: reject with status/message or call
`next()`. -/
inductive GateOutcome where
  | fail (status : Nat) (message : String)
  | proceed
deriving DecidableEq

/-- The `checkRole(allowedRoles)` middleware (middleware/roleCheck.js),
applied to the `req.user` attached by `protect` (or `none` when no user
was attached). -/
def checkRole (allowedRoles : List String) (user : Option Principal) :
    GateOutcome :=
  match user with
  | none => .fail 401 "User not authenticated"
  | some u =>
    if allowedRoles.contains u.role then .proceed
    else
      .fail 403 ("Access denied. Required role: " ++
        String.intercalate " or " allowedRoles ++ ". Your role: " ++ u.role)

/-- Result of a controller call: the JSON response, as status, message and
payload on success, or status and message on failure. -/
inductive ApiResult (α : Type) where
  | ok (status : Nat) (message : String) (data : α)
  | err (status : Nat) (message : String)
deriving DecidableEq

/-- The update document `req.body` as passed to `findByIdAndUpdate` by
`updatePost`: whatever fields the caller chose to send, including
`author`, which the controller does not strip. -/
structure UpdateBody where
  title : Option String
  content : Option String
  status : Option String
  author : Option Nat
deriving DecidableEq

/-- Application of an update document to a stored post, field by field
(absent fields keep their stored value). -/
def applyBody (p : Post) (b : UpdateBody) : Post :=
  { p with
    title := b.title.getD p.title
    content := b.content.getD p.content
    status := b.status.getD p.status
    author := b.author.getD p.author }

/-- The schema validators run by `runValidators: true` (models/Post.js):
title required and at most 200 characters, content required, status in
the `draft`/`published` enum. -/
def validPost (p : Post) : Bool :=
  p.title ≠ "" && p.title.length ≤ 200 && p.content ≠ "" &&
    (p.status == "draft" || p.status == "published")

/-- `updatePost` (postController.js): resolve the post, check the
admin-or-owner rule, then hand `req.body` to `findByIdAndUpdate` with
validators on. Returns the response and the post store after the call. -/
def updatePost (posts : List Post) (user : Principal) (pid : Nat)
    (body : UpdateBody) : ApiResult Post × List Post :=
  match findPost posts pid with
  | none => (.err 404 "Post not found", posts)
  | some post =>
    if user.role ≠ "admin" ∧ post.author ≠ user.id then
      (.err 403 "You can only edit your own posts", posts)
    else
      let updated := applyBody post body
      if validPost updated then
        (.ok 200 "Post updated successfully" updated,
         posts.map (fun q => if q.id = pid then updated else q))
      else
        (.err 500 "Error updating post", posts)

/-- `deletePost` (postController.js): resolve the post, check the
admin-or-owner rule, then `findByIdAndDelete`. -/
def deletePost (posts : List Post) (user : Principal) (pid : Nat) :
    ApiResult Unit × List Post :=
  match findPost posts pid with
  | none => (.err 404 "Post not found", posts)
  | some post =>
    if user.role ≠ "admin" ∧ post.author ≠ user.id then
      (.err 403 "You can only delete your own posts", posts)
    else
      (.ok 200 "Post deleted successfully" (),
       posts.filter (fun q => q.id != pid))

/-- The role whitelist of `updateUserRole`. -/
def validRoles : List String := ["admin", "editor", "viewer"]

/-- `updateUserRole` (userController.js): validate the requested role,
resolve the target user, refuse self-modification, then save the new
role. `actingId` is `req.user.id`, `targetId` is `req.params.id`. -/
def updateUserRole (users : List User) (actingId targetId : Nat)
    (role : Option String) : ApiResult Principal × List User :=
  match role with
  | none =>
    (.err 400 ("Invalid role. Must be one of: " ++
       String.intercalate ", " validRoles), users)
  | some r =>
    if ¬ validRoles.contains r then
      (.err 400 ("Invalid role. Must be one of: " ++
         String.intercalate ", " validRoles), users)
    else
      match findUser users targetId with
      | none => (.err 404 "User not found", users)
      | some user =>
        if user.id = actingId then
          (.err 400 "You cannot change your own role", users)
        else
          let updated := { user with role := r }
          (.ok 200 ("User role updated to " ++ r) (toPrincipal updated),
           users.map (fun v => if v.id = user.id then updated else v))

/-- `deleteUser` (userController.js): resolve the target user, refuse
self-deletion, then `findByIdAndDelete`. -/
def deleteUser (users : List User) (actingId targetId : Nat) :
    ApiResult Unit × List User :=
  match findUser users targetId with
  | none => (.err 404 "User not found", users)
  | some user =>
    if user.id = actingId then
      (.err 400 "You cannot delete your own account", users)
    else
      (.ok 200 "User deleted successfully" (),
       users.filter (fun v => v.id != targetId))

/-- The header check of `protect` came out false: no bearer token was
supplied (header absent, falsy, not `Bearer`-prefixed, or with no second
space-separated field). -/
def noTokenSupplied (authHeader : Option String) : Prop :=
  authHeader = none ∨ ∃ h, authHeader = some h ∧
    (h = "" ∨ jsStartsWith h "Bearer" = false ∨ bearerToken h = none)

/-- A bearer token was supplied but the codec rejects it. -/
def tokenInvalid (verify : String → Option Nat) (authHeader : Option String) :
    Prop :=
  ∃ h tok, authHeader = some h ∧ h ≠ "" ∧ jsStartsWith h "Bearer" = true ∧
    bearerToken h = some tok ∧ verify tok = none

/-- The token verifies but its subject id resolves to no stored user. -/
def principalMissing (verify : String → Option Nat) (users : List User)
    (authHeader : Option String) : Prop :=
  ∃ h tok uid, authHeader = some h ∧ h ≠ "" ∧ jsStartsWith h "Bearer" = true ∧
    bearerToken h = some tok ∧ verify tok = some uid ∧ findUser users uid = none

/-- Whole-system state: the two collections the backend touches. -/
structure SysState where
  users : List User
  posts : List Post
deriving DecidableEq

/-- `deleteUser` seen against the whole system state: the handler only
issues `User` model calls, so the post collection passes through. -/
def deleteUserSys (st : SysState) (actingId targetId : Nat) :
    ApiResult Unit × SysState :=
  let r := deleteUser st.users actingId targetId
  (r.1, ⟨r.2, st.posts⟩)

/-! Concrete records used by witnesses and counterexamples. -/

/-- A demo token codec: accepts exactly the token `tok`, for subject 1. -/
def demoVerify : String → Option Nat :=
  fun s => if s = "tok" then some 1 else none

def aliceAdmin : User := ⟨1, "Alice", "alice@example.com", "hash1", "admin"⟩

def bobViewer : User := ⟨2, "Bob", "bob@example.com", "hash2", "viewer"⟩

def demoPost : Post := ⟨1, "Title", "Body", 5, "draft"⟩

def edPrincipal : Principal := ⟨5, "Ed", "ed@example.com", "editor"⟩

def adminPrincipal : Principal := ⟨1, "Alice", "alice@example.com", "admin"⟩

def emptyBody : UpdateBody := ⟨none, none, none, none⟩

/-! Helper lemmas about store lookups. -/

/-- A record found by id carries that id. -/
theorem findUser_id {users : List User} {uid : Nat} {u : User}
    (h : findUser users uid = some u) : u.id = uid := by
  have hp := List.find?_some h
  simpa using hp

/-- A record found by id is in the store. -/
theorem findUser_mem {users : List User} {uid : Nat} {u : User}
    (h : findUser users uid = some u) : u ∈ users :=
  List.mem_of_find?_eq_some h

/-- After filtering out an id, lookup of that id fails. -/
theorem findUser_filter_ne (users : List User) (tid : Nat) :
    findUser (users.filter (fun v => v.id != tid)) tid = none := by
  apply List.find?_eq_none.mpr
  intro u hu
  have hf := (List.mem_filter.mp hu).2
  simpa using hf

/-- Replacing the found record by one with the same id makes lookup
return the replacement. -/
theorem findUser_replace {users : List User} {tid : Nat} {target : User}
    (u2 : User) (hfind : findUser users tid = some target)
    (hid : u2.id = target.id) :
    findUser (users.map (fun v => if v.id = target.id then u2 else v)) tid =
      some u2 := by
  have htid : target.id = tid := findUser_id hfind
  unfold findUser at hfind ⊢
  induction users with
  | nil => simp at hfind
  | cons v vs ih =>
    rcases hv : (v.id == tid) with _ | _
    · rw [List.find?_cons_of_neg _ (by simp [hv])] at hfind
      have hvne : ¬ v.id = target.id := by
        intro he
        rw [he, htid] at hv
        simp at hv
      simp only [List.map_cons, hvne, if_false]
      rw [List.find?_cons_of_neg _ (by simp [hv])]
      exact ih hfind
    · rw [List.find?_cons_of_pos _ (by simp [hv])] at hfind
      have hveq : v = target := by
        injection hfind
      simp only [List.map_cons, hveq, if_pos rfl]
      rw [List.find?_cons_of_pos _ (by simp [hid, htid])]
      simp

/-- Lookup commutes with rewriting every record's password: the match is
on the id alone. -/
theorem findUser_map_password (users : List User) (uid : Nat)
    (f : User → String) :
    findUser (users.map (fun u => { u with password := f u })) uid =
      (findUser users uid).map (fun u => { u with password := f u }) := by
  unfold findUser
  rw [List.find?_map]
  rfl

/-- Claim C3: the role gate built with allowed-role set R fails with 401
when no user is attached to the request; otherwise it proceeds exactly
when the attached user's role is a member of R, and a role outside R is
rejected with 403 and a message carrying the required-role set and the
actual role. The gate is a pure function of the role set and the attached
user: it touches no store. -/
theorem checkRole_decision (allowedRoles : List String)
    (user : Option Principal) :
    (user = none →
      checkRole allowedRoles user = .fail 401 "User not authenticated") ∧
    (∀ u, user = some u →
      (checkRole allowedRoles user = .proceed ↔ u.role ∈ allowedRoles) ∧
      (u.role ∉ allowedRoles →
        checkRole allowedRoles user =
          .fail 403 ("Access denied. Required role: " ++
            String.intercalate " or " allowedRoles ++
            ". Your role: " ++ u.role))) := by
  refine ⟨fun h => by rw [h]; rfl, fun u hu => ?_⟩
  subst hu
  by_cases hc : u.role ∈ allowedRoles
  · simp [checkRole, hc]
  · simp [checkRole, hc]

/-- Witness for C3 at concrete inputs: a viewer is rejected by the
admin-only gate with the diagnostic 403 message. -/
theorem checkRole_decision_witness :
    checkRole ["admin"] (some ⟨2, "Bob", "bob@example.com", "viewer"⟩) =
      .fail 403 "Access denied. Required role: admin. Your role: viewer" := by
  have h := (checkRole_decision ["admin"]
    (some ⟨2, "Bob", "bob@example.com", "viewer"⟩)).2
    ⟨2, "Bob", "bob@example.com", "viewer"⟩ rfl
  exact h.2 (by decide)

/-- Claim C10: when the authorization header is absent or does not begin
with `Bearer`, the auth middleware answers 401 with the no-token message,
invokes the token codec zero times, performs zero credential-store reads
and leaves the store unchanged. -/
theorem protect_no_bearer_no_codec (verify : String → Option Nat)
    (users : List User) (authHeader : Option String)
    (habs : authHeader = none ∨
      ∃ h, authHeader = some h ∧ jsStartsWith h "Bearer" = false) :
    protect verify users authHeader =
      ⟨.fail 401 "Not authorized, no token provided", 0, 0, users⟩ := by
  rcases habs with h | ⟨hd, rfl, hpre⟩
  · rw [h]; rfl
  · simp [protect, hpre]

/-- Witness for C10 at a concrete input: a non-bearer header. -/
theorem protect_no_bearer_no_codec_witness :
    protect demoVerify [aliceAdmin] (some "Token abc") =
      ⟨.fail 401 "Not authorized, no token provided", 0, 0, [aliceAdmin]⟩ :=
  protect_no_bearer_no_codec demoVerify [aliceAdmin] (some "Token abc")
    (Or.inr ⟨"Token abc", rfl, by decide⟩)

/-- Counterexample to claim C4 as stated: an admin updating their own
role with a valid requested role is answered with HTTP status 400, not
403, and likewise for self-deletion. -/
theorem selfAction_not_403 :
    (updateUserRole [aliceAdmin] 1 1 (some "editor")).1 =
      .err 400 "You cannot change your own role" ∧
    (∀ m, (updateUserRole [aliceAdmin] 1 1 (some "editor")).1 ≠
      ApiResult.err 403 m) ∧
    (deleteUser [aliceAdmin] 1 1).1 =
      .err 400 "You cannot delete your own account" ∧
    (∀ m, (deleteUser [aliceAdmin] 1 1).1 ≠ ApiResult.err 403 m) := by
  have h1 : (updateUserRole [aliceAdmin] 1 1 (some "editor")).1 =
      .err 400 "You cannot change your own role" := by decide
  have h2 : (deleteUser [aliceAdmin] 1 1).1 =
      .err 400 "You cannot delete your own account" := by decide
  refine ⟨h1, ?_, h2, ?_⟩
  · intro m hm
    rw [h1] at hm
    simp at hm
  · intro m hm
    rw [h2] at hm
    simp at hm

/-- Claim C4 as amended: a self-targeted role-update with a valid
requested role, and a self-targeted delete, fail with status 400 and the
self-modification message and leave the store unchanged; a role-update
whose requested role is invalid or absent fails the validation check
first (also 400); the same operations on any other existing user id are
not rejected by the self-check. -/
theorem selfProtection_amended (users : List User) (actingId : Nat)
    (role : Option String) (hself : ∃ u, findUser users actingId = some u) :
    ((∀ r, role = some r → validRoles.contains r = true →
        updateUserRole users actingId actingId role =
          (.err 400 "You cannot change your own role", users)) ∧
     ((role = none ∨ ∃ r, role = some r ∧ validRoles.contains r = false) →
        updateUserRole users actingId actingId role =
          (.err 400 "Invalid role. Must be one of: admin, editor, viewer",
           users)) ∧
     deleteUser users actingId actingId =
       (.err 400 "You cannot delete your own account", users)) ∧
    (∀ targetId target r, targetId ≠ actingId →
       findUser users targetId = some target →
       role = some r → validRoles.contains r = true →
       (updateUserRole users actingId targetId role).1 =
         .ok 200 ("User role updated to " ++ r)
           (toPrincipal { target with role := r }) ∧
       (deleteUser users actingId targetId).1 =
         .ok 200 "User deleted successfully" ()) := by
  obtain ⟨u, hu⟩ := hself
  have huid : u.id = actingId := findUser_id hu
  refine ⟨⟨?_, ?_, ?_⟩, ?_⟩
  · intro r hr hvr
    subst hr
    have hmem : r ∈ validRoles := by simpa using hvr
    simp [updateUserRole, hmem, hu, huid]
  · intro hbad
    rcases hbad with h | ⟨r, hr, hvr⟩
    · subst h; rfl
    · subst hr
      have hmem : r ∉ validRoles := by simpa using hvr
      simp only [updateUserRole]
      rw [if_pos (by simpa using hmem)]
      rfl
  · simp [deleteUser, hu, huid]
  · intro targetId target r htne hfind hr hvr
    subst hr
    have hmem : r ∈ validRoles := by simpa using hvr
    have htid : target.id = targetId := findUser_id hfind
    constructor
    · simp [updateUserRole, hmem, hfind, htid, htne]
    · simp [deleteUser, hfind, htid, htne]

/-- Witness for the amended C4 at concrete inputs. -/
theorem selfProtection_amended_witness :
    updateUserRole [aliceAdmin, bobViewer] 1 1 (some "editor") =
      (.err 400 "You cannot change your own role", [aliceAdmin, bobViewer]) ∧
    (deleteUser [aliceAdmin, bobViewer] 1 2).1 =
      .ok 200 "User deleted successfully" () := by
  have h := selfProtection_amended [aliceAdmin, bobViewer] 1 (some "editor")
    ⟨aliceAdmin, by decide⟩
  exact ⟨h.1.1 "editor" rfl (by decide),
    (h.2 2 bobViewer "editor" (by decide) (by decide) rfl (by decide)).2⟩

/-- Claim C5 evaluated at the failing input: the author of post 1 (user
5, an editor) updates their own post with a body whose `author` field is
9; the update succeeds and the stored post's author becomes 9 — the
controller hands `req.body` to `findByIdAndUpdate` unfiltered and the
schema does not mark `author` immutable, so ownership transfers,
contradicting the documented invariant. -/
theorem updatePost_author_overwritten :
    (updatePost [demoPost] edPrincipal 1 ⟨none, none, none, some 9⟩).1 =
      .ok 200 "Post updated successfully" ⟨1, "Title", "Body", 9, "draft"⟩ ∧
    (updatePost [demoPost] edPrincipal 1 ⟨none, none, none, some 9⟩).2 =
      [⟨1, "Title", "Body", 9, "draft"⟩] ∧
    demoPost.author = 5 := by decide

/-- Claim C6: for an admin role-update on an existing user other than the
actor, an absent or out-of-whitelist role fails validation with 400 and
leaves the store unchanged, while a whitelisted role succeeds and a
subsequent lookup of the target returns the new role. -/
theorem updateUserRole_validation (users : List User)
    (actingId targetId : Nat) (role : Option String) (target : User)
    (hfind : findUser users targetId = some target)
    (hne : targetId ≠ actingId) :
    ((role = none ∨ ∃ r, role = some r ∧ validRoles.contains r = false) →
       updateUserRole users actingId targetId role =
         (.err 400 "Invalid role. Must be one of: admin, editor, viewer",
          users)) ∧
    (∀ r, role = some r → validRoles.contains r = true →
       (updateUserRole users actingId targetId role).1 =
         .ok 200 ("User role updated to " ++ r)
           (toPrincipal { target with role := r }) ∧
       (findUser (updateUserRole users actingId targetId role).2
          targetId).map User.role = some r) := by
  have htid : target.id = targetId := findUser_id hfind
  constructor
  · intro hbad
    rcases hbad with h | ⟨r, hr, hvr⟩
    · subst h; rfl
    · subst hr
      have hmem : r ∉ validRoles := by simpa using hvr
      simp only [updateUserRole]
      rw [if_pos (by simpa using hmem)]
      rfl
  · intro r hr hvr
    subst hr
    have hmem : r ∈ validRoles := by simpa using hvr
    have hnext : findUser
        (users.map (fun v => if v.id = target.id then
          { target with role := r } else v)) targetId =
        some { target with role := r } :=
      findUser_replace { target with role := r } hfind rfl
    rw [htid] at hnext
    constructor
    · simp [updateUserRole, hmem, hfind, htid, hne]
    · simp [updateUserRole, hmem, hfind, htid, hne, hnext]

/-- Witness for C6 at concrete inputs: the admin sets Bob's role to
editor and the follow-up lookup sees it; the bogus role `superuser` is
rejected. -/
theorem updateUserRole_validation_witness :
    (findUser (updateUserRole [aliceAdmin, bobViewer] 1 2
       (some "editor")).2 2).map User.role = some "editor" ∧
    updateUserRole [aliceAdmin, bobViewer] 1 2 (some "superuser") =
      (.err 400 "Invalid role. Must be one of: admin, editor, viewer",
       [aliceAdmin, bobViewer]) := by
  refine ⟨((updateUserRole_validation [aliceAdmin, bobViewer] 1 2
      (some "editor") bobViewer (by decide) (by decide)).2 "editor" rfl
      (by decide)).2, ?_⟩
  exact (updateUserRole_validation [aliceAdmin, bobViewer] 1 2
      (some "superuser") bobViewer (by decide) (by decide)).1
    (Or.inr ⟨"superuser", rfl, by decide⟩)

/-- Claim C9: an admin deleting another existing user succeeds even when
that user still owns posts; the post collection is untouched, every such
post survives, and its author reference now resolves to no user. -/
theorem deleteUser_posts_frame (st : SysState) (actingId targetId : Nat)
    (target : User) (p : Post)
    (hfind : findUser st.users targetId = some target)
    (hne : targetId ≠ actingId) (hmem : p ∈ st.posts)
    (hauthor : p.author = targetId) :
    (deleteUserSys st actingId targetId).1 =
      .ok 200 "User deleted successfully" () ∧
    (deleteUserSys st actingId targetId).2.posts = st.posts ∧
    p ∈ (deleteUserSys st actingId targetId).2.posts ∧
    findUser (deleteUserSys st actingId targetId).2.users p.author =
      none := by
  have htid : target.id = targetId := findUser_id hfind
  have hdel : deleteUser st.users actingId targetId =
      (.ok 200 "User deleted successfully" (),
       st.users.filter (fun v => v.id != targetId)) := by
    simp [deleteUser, hfind, htid, hne]
  refine ⟨?_, rfl, hmem, ?_⟩
  · simp [deleteUserSys, hdel]
  · rw [hauthor]
    simp [deleteUserSys, hdel, findUser_filter_ne]

/-- Witness for C9 at concrete inputs: deleting Bob, who owns post 7,
succeeds and post 7 survives unchanged. -/
theorem deleteUser_posts_frame_witness :
    (deleteUserSys ⟨[aliceAdmin, bobViewer],
        [⟨7, "T", "C", 2, "draft"⟩]⟩ 1 2).1 =
      .ok 200 "User deleted successfully" () ∧
    (deleteUserSys ⟨[aliceAdmin, bobViewer],
        [⟨7, "T", "C", 2, "draft"⟩]⟩ 1 2).2.posts =
      [⟨7, "T", "C", 2, "draft"⟩] := by
  have h := deleteUser_posts_frame
    ⟨[aliceAdmin, bobViewer], [⟨7, "T", "C", 2, "draft"⟩]⟩ 1 2 bobViewer
    ⟨7, "T", "C", 2, "draft"⟩ (by decide) (by decide) (by decide) rfl
  exact ⟨h.1, h.2.1⟩

/-- Claim C7: on a valid token whose subject exists, the auth middleware
attaches that subject's principal, performs exactly one credential-store
read and writes nothing; running it again on the resulting store yields
the identical trace, so the same principal is attached both times. -/
theorem protect_idempotent_one_read (verify : String → Option Nat)
    (users : List User) (header tok : String) (uid : Nat) (u : User)
    (hne : header ≠ "") (hpre : jsStartsWith header "Bearer" = true)
    (htok : bearerToken header = some tok) (htne : tok ≠ "")
    (hv : verify tok = some uid) (hu : findUser users uid = some u) :
    protect verify users (some header) =
      ⟨.proceed (toPrincipal u), 1, 1, users⟩ ∧
    protect verify (protect verify users (some header)).usersAfter
        (some header) = ⟨.proceed (toPrincipal u), 1, 1, users⟩ := by
  have h1 : protect verify users (some header) =
      ⟨.proceed (toPrincipal u), 1, 1, users⟩ := by
    simp [protect, hne, hpre, htok, hv, hu, htne]
  exact ⟨h1, by rw [h1]; exact h1⟩

/-- Witness for C7 at concrete inputs. -/
theorem protect_idempotent_one_read_witness :
    protect demoVerify [aliceAdmin] (some "Bearer tok") =
      ⟨.proceed (toPrincipal aliceAdmin), 1, 1, [aliceAdmin]⟩ :=
  (protect_idempotent_one_read demoVerify [aliceAdmin] "Bearer tok" "tok" 1
    aliceAdmin (by decide) (by decide) (by decide) (by decide) (by decide)
    (by decide)).1

/-- Claim C8: the middleware's observable outcome is invariant under
arbitrary rewriting of every stored password (so the attached principal
carries no password information), and every attached principal is the
password-free projection of a stored user, found again by its own id. -/
theorem protect_excludes_password (verify : String → Option Nat)
    (users : List User) (authHeader : Option String) (f : User → String) :
    (protect verify (users.map (fun u => { u with password := f u }))
        authHeader).outcome = (protect verify users authHeader).outcome ∧
    ∀ p, (protect verify users authHeader).outcome = .proceed p →
      ∃ u, u ∈ users ∧ findUser users p.id = some u ∧ p = toPrincipal u := by
  constructor
  · rcases authHeader with _ | header
    · rfl
    · by_cases hcond : header ≠ "" ∧ jsStartsWith header "Bearer" = true
      · rcases htok : bearerToken header with _ | tok
        · simp [protect, hcond, htok]
        · rcases hv : verify tok with _ | uid
          · simp [protect, hcond, htok, hv]
          · have hmap := findUser_map_password users uid f
            rcases hu : findUser users uid with _ | u
            · rw [hu] at hmap
              simp [protect, hcond, htok, hv, hu, hmap]
            · rw [hu] at hmap
              rcases eq_or_ne tok "" with htz | htz
              · subst htz
                simp [protect, hcond, htok, hv, hu, hmap, toPrincipal]
              · simp [protect, hcond, htok, hv, hu, hmap, htz, toPrincipal]
      · simp [protect, hcond]
  · intro p hp
    rcases authHeader with _ | header
    · simp [protect] at hp
    · by_cases hcond : header ≠ "" ∧ jsStartsWith header "Bearer" = true
      · rcases htok : bearerToken header with _ | tok
        · simp [protect, hcond, htok] at hp
        · rcases hv : verify tok with _ | uid
          · simp [protect, hcond, htok, hv] at hp
          · rcases hu : findUser users uid with _ | u
            · simp [protect, hcond, htok, hv, hu] at hp
            · rcases eq_or_ne tok "" with htz | htz
              · subst htz
                simp [protect, hcond, htok, hv, hu] at hp
              · simp [protect, hcond, htok, hv, hu, htz] at hp
                have huid : u.id = uid := findUser_id hu
                refine ⟨u, findUser_mem hu, ?_, ?_⟩
                · rw [← hp]
                  show findUser users u.id = some u
                  rw [huid]
                  exact hu
                · rw [hp]
      · simp [protect, hcond] at hp

/-- Witness for C8 at concrete inputs: rewriting the stored password does
not change the middleware's outcome, and the attached principal is the
projection of the stored record. -/
theorem protect_excludes_password_witness :
    (protect demoVerify
        ([aliceAdmin].map (fun u => { u with password := "other" }))
        (some "Bearer tok")).outcome =
      (protect demoVerify [aliceAdmin] (some "Bearer tok")).outcome ∧
    ∃ u, u ∈ [aliceAdmin] ∧
      findUser [aliceAdmin] (toPrincipal aliceAdmin).id = some u ∧
      toPrincipal aliceAdmin = toPrincipal u := by
  have h := protect_excludes_password demoVerify [aliceAdmin]
    (some "Bearer tok") (fun _ => "other")
  exact ⟨h.1, h.2 (toPrincipal aliceAdmin) (by decide)⟩

/-- Claim C1: for post update and delete by an authenticated admin or
editor, a missing post answers 404; with the post present, the 403
ownership rejection happens exactly when the actor is not an admin and
not the author; an admin or the author passes the gate, and for delete
then succeeds outright. -/
theorem postModify_owner_or_admin (posts : List Post) (user : Principal)
    (pid : Nat) (body : UpdateBody)
    (hrole : user.role = "admin" ∨ user.role = "editor") :
    ((updatePost posts user pid body).1 = .err 404 "Post not found" ↔
      findPost posts pid = none) ∧
    ((deletePost posts user pid).1 = .err 404 "Post not found" ↔
      findPost posts pid = none) ∧
    ((updatePost posts user pid body).1 =
        .err 403 "You can only edit your own posts" ↔
      ∃ post, findPost posts pid = some post ∧ user.role ≠ "admin" ∧
        post.author ≠ user.id) ∧
    ((deletePost posts user pid).1 =
        .err 403 "You can only delete your own posts" ↔
      ∃ post, findPost posts pid = some post ∧ user.role ≠ "admin" ∧
        post.author ≠ user.id) ∧
    (∀ post, findPost posts pid = some post →
      (user.role = "admin" ∨ post.author = user.id) →
      (deletePost posts user pid).1 =
        .ok 200 "Post deleted successfully" ()) := by
  rcases hfp : findPost posts pid with _ | post
  · refine ⟨?_, ?_, ?_, ?_, ?_⟩ <;> simp [updatePost, deletePost, hfp]
  · by_cases hperm : user.role ≠ "admin" ∧ post.author ≠ user.id
    · have h1 : (updatePost posts user pid body).1 =
          .err 403 "You can only edit your own posts" := by
        simp [updatePost, hfp, hperm]
      have h2 : (deletePost posts user pid).1 =
          .err 403 "You can only delete your own posts" := by
        simp [deletePost, hfp, hperm]
      refine ⟨?_, ?_, ?_, ?_, ?_⟩
      · rw [h1]; simp [hfp]
      · rw [h2]; simp [hfp]
      · rw [h1]; simp [hfp, hperm.1, hperm.2]
      · rw [h2]; simp [hfp, hperm.1, hperm.2]
      · intro post2 hp2 hok
        injection hp2 with hp2
        subst hp2
        rcases hok with h | h
        · exact absurd h hperm.1
        · exact absurd h hperm.2
    · have hdel : (deletePost posts user pid).1 =
          .ok 200 "Post deleted successfully" () := by
        simp [deletePost, hfp, hperm]
      have hupd : (updatePost posts user pid body).1 =
          .ok 200 "Post updated successfully" (applyBody post body) ∨
          (updatePost posts user pid body).1 =
            .err 500 "Error updating post" := by
        by_cases hval : validPost (applyBody post body) = true
        · left
          simp [updatePost, hfp, hperm, hval]
        · right
          simp [updatePost, hfp, hperm, hval]
      refine ⟨?_, ?_, ?_, ?_, fun _ _ _ => hdel⟩
      · rcases hupd with h | h <;> rw [h] <;> simp [hfp]
      · rw [hdel]; simp [hfp]
      · rcases hupd with h | h <;> rw [h] <;> simp [hfp, hperm]
      · rw [hdel]; simp [hfp, hperm]

/-- Witness for C1 at concrete inputs: the admin deletes a post they do
not own. -/
theorem postModify_owner_or_admin_witness :
    (deletePost [demoPost] adminPrincipal 1).1 =
      .ok 200 "Post deleted successfully" () := by
  have h := postModify_owner_or_admin [demoPost] adminPrincipal 1 emptyBody
    (Or.inl rfl)
  exact h.2.2.2.2 demoPost (by decide) (Or.inl rfl)

/-- Claim C2: assuming the codec rejects the empty token (as `jwt.verify`
does), the auth middleware answers 401 exactly when no bearer token is
supplied, or the supplied token fails verification, or the verified
subject id resolves to no stored user; every rejection carries status
401; in every other case it attaches the resolved user's password-free
record and proceeds. -/
theorem protect_unauthenticated_exactly (verify : String → Option Nat)
    (users : List User) (authHeader : Option String)
    (hempty : verify "" = none) :
    ((∃ m, (protect verify users authHeader).outcome = .fail 401 m) ↔
      (noTokenSupplied authHeader ∨ tokenInvalid verify authHeader ∨
        principalMissing verify users authHeader)) ∧
    (∀ s m, (protect verify users authHeader).outcome = .fail s m →
      s = 401) ∧
    (¬ (noTokenSupplied authHeader ∨ tokenInvalid verify authHeader ∨
        principalMissing verify users authHeader) →
      ∃ h tok uid u, authHeader = some h ∧ bearerToken h = some tok ∧
        verify tok = some uid ∧ findUser users uid = some u ∧
        (protect verify users authHeader).outcome =
          .proceed (toPrincipal u)) := by
  rcases authHeader with _ | header
  · have hout : (protect verify users none).outcome =
        .fail 401 "Not authorized, no token provided" := rfl
    have hcase : noTokenSupplied (none : Option String) ∨
        tokenInvalid verify none ∨ principalMissing verify users none :=
      Or.inl (Or.inl rfl)
    refine ⟨iff_of_true ⟨_, hout⟩ hcase, ?_, fun hn => absurd hcase hn⟩
    intro s m hp
    rw [hout] at hp
    injection hp with h1 h2
    exact h1.symm
  · by_cases hcond : header ≠ "" ∧ jsStartsWith header "Bearer" = true
    · obtain ⟨hne, hpre⟩ := hcond
      rcases htok : bearerToken header with _ | tok
      · have hout : (protect verify users (some header)).outcome =
            .fail 401 "Not authorized, token failed" := by
          simp [protect, hne, hpre, htok]
        have hcase : noTokenSupplied (some header) ∨
            tokenInvalid verify (some header) ∨
            principalMissing verify users (some header) :=
          Or.inl (Or.inr ⟨header, rfl, Or.inr (Or.inr htok)⟩)
        refine ⟨iff_of_true ⟨_, hout⟩ hcase, ?_, fun hn => absurd hcase hn⟩
        intro s m hp
        rw [hout] at hp
        injection hp with h1 h2
        exact h1.symm
      · rcases hv : verify tok with _ | uid
        · have hout : (protect verify users (some header)).outcome =
              .fail 401 "Not authorized, token failed" := by
            simp [protect, hne, hpre, htok, hv]
          have hcase : noTokenSupplied (some header) ∨
              tokenInvalid verify (some header) ∨
              principalMissing verify users (some header) :=
            Or.inr (Or.inl ⟨header, tok, rfl, hne, hpre, htok, hv⟩)
          refine ⟨iff_of_true ⟨_, hout⟩ hcase, ?_, fun hn => absurd hcase hn⟩
          intro s m hp
          rw [hout] at hp
          injection hp with h1 h2
          exact h1.symm
        · have htne : tok ≠ "" := by
            intro hz
            rw [hz, hempty] at hv
            cases hv
          rcases hu : findUser users uid with _ | u
          · have hout : (protect verify users (some header)).outcome =
                .fail 401 "User not found" := by
              simp [protect, hne, hpre, htok, hv, hu]
            have hcase : noTokenSupplied (some header) ∨
                tokenInvalid verify (some header) ∨
                principalMissing verify users (some header) :=
              Or.inr (Or.inr ⟨header, tok, uid, rfl, hne, hpre, htok, hv, hu⟩)
            refine ⟨iff_of_true ⟨_, hout⟩ hcase, ?_,
              fun hn => absurd hcase hn⟩
            intro s m hp
            rw [hout] at hp
            injection hp with h1 h2
            exact h1.symm
          · have hout : (protect verify users (some header)).outcome =
                .proceed (toPrincipal u) := by
              simp [protect, hne, hpre, htok, hv, hu, htne]
            have hnot : ¬ (noTokenSupplied (some header) ∨
                tokenInvalid verify (some header) ∨
                principalMissing verify users (some header)) := by
              rintro (hc | hc | hc)
              · rcases hc with hc | ⟨h2, heq, hc⟩
                · exact Option.noConfusion hc
                · injection heq with heq
                  subst heq
                  rcases hc with hc | hc | hc
                  · exact hne hc
                  · rw [hpre] at hc
                    cases hc
                  · rw [htok] at hc
                    cases hc
              · obtain ⟨h2, tok2, heq, _, _, htok2, hv2⟩ := hc
                injection heq with heq
                subst heq
                rw [htok] at htok2
                injection htok2 with htok2
                subst htok2
                rw [hv] at hv2
                cases hv2
              · obtain ⟨h2, tok2, uid2, heq, _, _, htok2, hv2, hu2⟩ := hc
                injection heq with heq
                subst heq
                rw [htok] at htok2
                injection htok2 with htok2
                subst htok2
                rw [hv] at hv2
                injection hv2 with hv2
                subst hv2
                rw [hu] at hu2
                cases hu2
            refine ⟨?_, ?_, ?_⟩
            · apply iff_of_false ?_ hnot
              rintro ⟨m, hm⟩
              rw [hout] at hm
              cases hm
            · intro s m hp
              rw [hout] at hp
              cases hp
            · intro _
              exact ⟨header, tok, uid, u, rfl, htok, hv, hu, hout⟩
    · have hout : (protect verify users (some header)).outcome =
          .fail 401 "Not authorized, no token provided" := by
        simp [protect, hcond]
      have hcase : noTokenSupplied (some header) ∨
          tokenInvalid verify (some header) ∨
          principalMissing verify users (some header) := by
        rcases not_and_or.mp hcond with h | h
        · exact Or.inl (Or.inr ⟨header, rfl, Or.inl (not_not.mp h)⟩)
        · exact Or.inl (Or.inr ⟨header, rfl,
            Or.inr (Or.inl (by simpa using h))⟩)
      refine ⟨iff_of_true ⟨_, hout⟩ hcase, ?_, fun hn => absurd hcase hn⟩
      intro s m hp
      rw [hout] at hp
      injection hp with h1 h2
      exact h1.symm

/-- Witness for C2 at a concrete input: a bearer token the codec
rejects. -/
theorem protect_unauthenticated_exactly_witness :
    ∃ m, (protect demoVerify [aliceAdmin] (some "Bearer bad")).outcome =
      .fail 401 m := by
  have h := protect_unauthenticated_exactly demoVerify [aliceAdmin]
    (some "Bearer bad") (by decide)
  exact h.1.mpr (Or.inr (Or.inl ⟨"Bearer bad", "bad", rfl, by decide,
    by decide, by decide, by decide⟩))

end RBAC
